import Mathlib

/-!
Verification of helm-secrets: broker provisioning, authentication and health check.

A shallow embedding of `cmd/helm-secrets/main.go`.

* The AMQP channel `ch` is an explicit record of the three methods the program
  calls; every method takes the broker state and returns the error (if any)
  together with the next broker state.  `initRabbit` is the straight-line
  sequence of eight guarded calls of the source.
* HTTP handlers are functions on a recording `ResponseWriter`, the request and
  an application state.
* The outcomes of the external operations used by the health check (database,
  broker, file system, clock) are read from a `World` record.
-/

namespace HelmSecrets

/-! ## AMQP channel interface -/

/-- Values stored in an `amqp.Table` by this program: strings and integers. -/
inductive Field where
  | str (s : String)
  | int (n : Int)
  deriving DecidableEq, Repr

/-- The type `amqp.Table` (`map[string]interface{}`); `nil` is the empty table. -/
abbrev Table := List (String × Field)

/-- One method call on the channel, with its arguments in the order of the Go
signatures `ExchangeDeclare(name, kind, durable, autoDelete, internal, noWait, args)`,
`QueueDeclare(name, durable, autoDelete, exclusive, noWait, args)` and
`QueueBind(name, key, exchange, noWait, args)`. -/
inductive Call where
  | exchangeDeclare (name kind : String) (durable autoDelete internal noWait : Bool)
      (args : Table)
  | queueDeclare (name : String) (durable autoDelete exclusive noWait : Bool) (args : Table)
  | queueBind (name key exchange : String) (noWait : Bool) (args : Table)
  deriving DecidableEq, Repr

/-- The methods of `*amqp.Channel` used by the program, over a broker state `σ`
and an error type `ε`.  `none` is Go's `nil` error.  The `amqp.Queue` value that
`QueueDeclare` also returns is only stored in the package variable `queue`,
which nothing reads, and is left out. -/
structure Channel (σ ε : Type) where
  ExchangeDeclare : String → String → Bool → Bool → Bool → Bool → Table → σ → Option ε × σ
  QueueDeclare : String → Bool → Bool → Bool → Bool → Table → σ → Option ε × σ
  QueueBind : String → String → String → Bool → Table → σ → Option ε × σ

variable {σ ε : Type}

/-- The function `initRabbit` of `main.go`: eight channel calls, each followed by
`if err != nil { return err }`, then `return nil`. -/
def initRabbit (ch : Channel σ ε) (s : σ) : Option ε × σ :=
  match ch.ExchangeDeclare "VideoParserExchange" "fanout" true false false false [] s with
  | (some err, s) => (some err, s)
  | (none, s) =>
  match ch.ExchangeDeclare "VideoParserRetryExchange" "fanout" true false false false [] s with
  | (some err, s) => (some err, s)
  | (none, s) =>
  let args : Table := [("x-dead-letter-exchange", Field.str "VideoParserRetryExchange")]
  match ch.QueueDeclare "VideoParserWorkerQueue" true false false false args s with
  | (some err, s) => (some err, s)
  | (none, s) =>
  let args : Table := [("x-dead-letter-exchange", Field.str "VideoParserExchange"),
    ("x-message-ttl", Field.int 60000)]
  match ch.QueueDeclare "VideoParserWorkerRetryQueue" true false false false args s with
  | (some err, s) => (some err, s)
  | (none, s) =>
  match ch.QueueDeclare "VideoParserArchiveQueue" true false false false [] s with
  | (some err, s) => (some err, s)
  | (none, s) =>
  match ch.QueueBind "VideoParserWorkerQueue" "*" "VideoParserExchange" false [] s with
  | (some err, s) => (some err, s)
  | (none, s) =>
  match ch.QueueBind "VideoParserArchiveQueue" "*" "VideoParserExchange" false [] s with
  | (some err, s) => (some err, s)
  | (none, s) =>
  match ch.QueueBind "VideoParserWorkerRetryQueue" "*" "VideoParserRetryExchange" false [] s with
  | (some err, s) => (some err, s)
  | (none, s) => (none, s)

/-! ## Observing the calls a program issues -/

/-- Dispatch of a recorded call to the channel method it stands for. -/
def Channel.issue (ch : Channel σ ε) : Call → σ → Option ε × σ
  | Call.exchangeDeclare n k d a i w t, s => ch.ExchangeDeclare n k d a i w t s
  | Call.queueDeclare n d a x w t, s => ch.QueueDeclare n d a x w t s
  | Call.queueBind n k x w t, s => ch.QueueBind n k x w t s

/-- The same channel, additionally recording every call issued on it, in order. -/
def Channel.logged (ch : Channel σ ε) : Channel (σ × List Call) ε where
  ExchangeDeclare n k d a i w t := fun p =>
    ((ch.ExchangeDeclare n k d a i w t p.1).1,
      ((ch.ExchangeDeclare n k d a i w t p.1).2, p.2 ++ [Call.exchangeDeclare n k d a i w t]))
  QueueDeclare n d a x w t := fun p =>
    ((ch.QueueDeclare n d a x w t p.1).1,
      ((ch.QueueDeclare n d a x w t p.1).2, p.2 ++ [Call.queueDeclare n d a x w t]))
  QueueBind n k x w t := fun p =>
    ((ch.QueueBind n k x w t p.1).1,
      ((ch.QueueBind n k x w t p.1).2, p.2 ++ [Call.queueBind n k x w t]))

/-- The state reached when every call of the list succeeds on the broker, issued
in order from state `s`; `none` as soon as one of them fails. -/
def runAll (ch : Channel σ ε) : List Call → σ → Option σ
  | [], s => some s
  | c :: cs, s =>
    match ch.issue c s with
    | (none, s1) => runAll ch cs s1
    | (some _, _) => none

/-- Issue the calls of the list in order and stop at the first error. -/
def runCalls (ch : Channel σ ε) : List Call → σ → Option ε × σ
  | [], s => (none, s)
  | c :: cs, s =>
    match ch.issue c s with
    | (some err, s1) => (some err, s1)
    | (none, s1) => runCalls ch cs s1

/-- The eight calls of `initRabbit`, in source order. -/
def initRabbitCalls : List Call :=
  [ Call.exchangeDeclare "VideoParserExchange" "fanout" true false false false [],
    Call.exchangeDeclare "VideoParserRetryExchange" "fanout" true false false false [],
    Call.queueDeclare "VideoParserWorkerQueue" true false false false
      [("x-dead-letter-exchange", Field.str "VideoParserRetryExchange")],
    Call.queueDeclare "VideoParserWorkerRetryQueue" true false false false
      [("x-dead-letter-exchange", Field.str "VideoParserExchange"),
       ("x-message-ttl", Field.int 60000)],
    Call.queueDeclare "VideoParserArchiveQueue" true false false false [],
    Call.queueBind "VideoParserWorkerQueue" "*" "VideoParserExchange" false [],
    Call.queueBind "VideoParserArchiveQueue" "*" "VideoParserExchange" false [],
    Call.queueBind "VideoParserWorkerRetryQueue" "*" "VideoParserRetryExchange" false [] ]

/-! ## The broker -/

/-- Modelled from the spec: the message broker is an external AMQP server, not
part of the repository.  An exchange as the broker stores it. -/
structure Exchange where
  name : String
  kind : String
  durable : Bool
  autoDelete : Bool
  internal : Bool
  args : Table
  deriving DecidableEq, Repr

/-- Modelled from the spec: a queue as the broker stores it (external AMQP
server). -/
structure Queue where
  name : String
  durable : Bool
  autoDelete : Bool
  exclusive : Bool
  args : Table
  deriving DecidableEq, Repr

/-- Modelled from the spec: a binding of a queue to an exchange (external AMQP
server). -/
structure Binding where
  queue : String
  key : String
  exchange : String
  args : Table
  deriving DecidableEq, Repr

/-- Modelled from the spec: the topology held by the external AMQP server, that
is its exchanges, queues and bindings. -/
structure Broker where
  exchanges : List Exchange
  queues : List Queue
  bindings : List Binding
  deriving DecidableEq, Repr

/-- Modelled from the spec: the errors with which the external AMQP server
refuses a declaration or a binding. -/
inductive AmqpError where
  | PreconditionFailed (entity : String)
  | NotFound (entity : String)
  deriving DecidableEq, Repr

/-- A broker without any exchange, queue or binding. -/
def Broker.empty : Broker := ⟨[], [], []⟩

def Broker.findExchange (b : Broker) (name : String) : Option Exchange :=
  b.exchanges.find? (fun x => x.name == name)

def Broker.findQueue (b : Broker) (name : String) : Option Queue :=
  b.queues.find? (fun q => q.name == name)

/-- Modelled from the spec: declaration on the external AMQP server is
idempotent.  Declaring an exchange that exists with the same attributes changes
nothing, declaring one that exists with other attributes is refused, and
declaring a new one creates it. -/
def Broker.exchangeDeclare (b : Broker) (x : Exchange) : Option AmqpError × Broker :=
  match b.findExchange x.name with
  | some y => if y = x then (none, b) else (some (AmqpError.PreconditionFailed x.name), b)
  | none => (none, { b with exchanges := b.exchanges ++ [x] })

/-- Modelled from the spec: idempotent queue declaration on the external AMQP
server, as for exchanges. -/
def Broker.queueDeclare (b : Broker) (q : Queue) : Option AmqpError × Broker :=
  match b.findQueue q.name with
  | some y => if y = q then (none, b) else (some (AmqpError.PreconditionFailed q.name), b)
  | none => (none, { b with queues := b.queues ++ [q] })

/-- Modelled from the spec: binding on the external AMQP server.  Both ends must
exist; a binding that is already present is not duplicated. -/
def Broker.queueBind (b : Broker) (x : Binding) : Option AmqpError × Broker :=
  match b.findQueue x.queue with
  | none => (some (AmqpError.NotFound x.queue), b)
  | some _ =>
    match b.findExchange x.exchange with
    | none => (some (AmqpError.NotFound x.exchange), b)
    | some _ => if x ∈ b.bindings then (none, b) else (none, { b with bindings := b.bindings ++ [x] })

/-- Modelled from the spec: a fan-out exchange copies each published message to
every queue bound to it, ignoring routing keys, one copy per queue.  The result
lists the queues that receive a copy of a message published to `exchange`; other
exchange kinds are not part of the topology and deliver nothing here. -/
def Broker.route (b : Broker) (exchange : String) : List String :=
  match b.findExchange exchange with
  | none => []
  | some x =>
    if x.kind = "fanout" then
      ((b.bindings.filter (fun y => y.exchange == exchange)).map Binding.queue).eraseDups
    else []

/-- The dead-letter exchange configured on a queue, if any. -/
def Queue.deadLetterExchange (q : Queue) : Option String :=
  match q.args.lookup "x-dead-letter-exchange" with
  | some (Field.str x) => some x
  | _ => none

/-- The message time-to-live configured on a queue, in milliseconds, if any. -/
def Queue.messageTTL (q : Queue) : Option Int :=
  match q.args.lookup "x-message-ttl" with
  | some (Field.int n) => some n
  | _ => none

/-- Modelled from the spec: a message that a queue rejects or expires is
redirected to the queue's dead-letter exchange and routed from there; without a
dead-letter exchange it is dropped.  The result lists the queues that receive
it. -/
def Broker.deadLetter (b : Broker) (queue : String) : List String :=
  match b.findQueue queue with
  | none => []
  | some q =>
    match q.deadLetterExchange with
    | none => []
    | some x => b.route x

/-- Modelled from the spec: a message expires in a queue only when the queue has
a time-to-live, and is then dead-lettered.  `none` when messages never expire in
the queue. -/
def Broker.expire (b : Broker) (queue : String) : Option (List String) :=
  match b.findQueue queue with
  | none => none
  | some q =>
    match q.messageTTL with
    | none => none
    | some _ => some (b.deadLetter queue)

/-- The channel opened on the modelled broker.  The `noWait` flag only selects
whether the client waits for the reply and does not change the topology. -/
def amqp : Channel Broker AmqpError where
  ExchangeDeclare n k d a i _ t := fun b => b.exchangeDeclare ⟨n, k, d, a, i, t⟩
  QueueDeclare n d a x _ t := fun b => b.queueDeclare ⟨n, d, a, x, t⟩
  QueueBind n k x _ t := fun b => b.queueBind ⟨n, k, x, t⟩

/-! ## Configuration -/

/-- The struct `environment` of `main.go`; a variable that is not set leaves its
field at the empty string. -/
structure environment where
  PgsqlURI : String
  Listen : String
  RabbitURI : String
  MigrationPath : String
  ApiToken : String
  deriving DecidableEq, Repr

/-! ## HTTP requests and responses -/

/-- The function `validHeaderFieldByte` of `net/textproto`: the characters of an
HTTP token, that is letters, digits and the marks of the list. -/
def validHeaderFieldByte (c : Char) : Bool :=
  c.isAlphanum ||
    [33, 35, 36, 37, 38, 39, 42, 43, 45, 46, 94, 95, 96, 124, 126].contains c.toNat

/-- The letter case of a canonical header name: upper case at the start and
after a hyphen, lower case elsewhere. -/
def canonicalCase : Bool → List Char → List Char
  | _, [] => []
  | upper, c :: cs =>
    let d := if upper && c.isLower then c.toUpper
      else if !upper && c.isUpper then c.toLower
      else c
    d :: canonicalCase (d == Char.ofNat 45) cs

/-- The function `textproto.CanonicalMIMEHeaderKey`: a name made of token
characters is put in canonical case, any other name is returned unchanged. -/
def CanonicalMIMEHeaderKey (s : String) : String :=
  if s.data.all validHeaderFieldByte then String.mk (canonicalCase true s.data) else s

/-- The type `http.Header`: the header names, as stored, with their values.  The
server stores the names of a request in canonical form. -/
structure Header where
  entries : List (String × List String)
  deriving DecidableEq, Repr

/-- The method `Header.Get`: the first value stored under the canonical form of
the key, or `""` when there is none. -/
def Header.Get (h : Header) (key : String) : String :=
  match h.entries.lookup (CanonicalMIMEHeaderKey key) with
  | some (v :: _) => v
  | _ => ""

/-- The method `Header.Set`: replace the values stored under the canonical form
of the key by the single value. -/
def Header.Set (h : Header) (key value : String) : Header :=
  ⟨(h.entries.filter (fun e => e.1 != CanonicalMIMEHeaderKey key)) ++
    [(CanonicalMIMEHeaderKey key, [value])]⟩

/-- The part of `http.Request` a handler can read. -/
structure Request where
  Method : String
  Path : String
  Header : Header
  Body : String
  deriving DecidableEq, Repr

def StatusOK : Int := 200
def StatusUnauthorized : Int := 401
def StatusInternalServerError : Int := 500
def StatusServiceUnavailable : Int := 503

/-- The `http.ResponseWriter` of the server, by what it sends: the header map,
the status code once it has been written, the body sent so far, and whether the
request being answered is a `HEAD` request. -/
structure ResponseWriter where
  header : Header
  status : Option Int
  body : String
  head : Bool
  deriving DecidableEq, Repr

/-- A writer on which nothing has been written yet, answering a request other
than `HEAD`. -/
def ResponseWriter.fresh : ResponseWriter := ⟨⟨[]⟩, none, "", false⟩

/-- The method `WriteHeader`: the first status code written is the one sent.
Codes outside 100..999, on which `net/http` panics, are not distinguished. -/
def ResponseWriter.WriteHeader (w : ResponseWriter) (code : Int) : ResponseWriter :=
  match w.status with
  | some _ => w
  | none => { w with status := some code }

/-- The function `bodyAllowedForStatus` of `net/http`: a response with status
1xx, 204 or 304 has no body. -/
def bodyAllowedForStatus (status : Int) : Bool :=
  if 100 ≤ status ∧ status ≤ 199 then false
  else if status = 204 then false
  else if status = 304 then false
  else true

/-- The method `Write`: writes status 200 first if no status was written; the
data is sent only when the status allows a body and the request is not a `HEAD`
request, otherwise it is dropped.  A `Content-Length` header that limits the
body is not modelled. -/
def ResponseWriter.Write (w : ResponseWriter) (data : String) : ResponseWriter :=
  let w := w.WriteHeader StatusOK
  match w.status with
  | some code =>
    if bodyAllowedForStatus code && !w.head then { w with body := w.body ++ data } else w
  | none => w

/-- The call `w.Header().Set(key, value)`. -/
def ResponseWriter.SetHeader (w : ResponseWriter) (key value : String) : ResponseWriter :=
  { w with header := w.header.Set key value }

/-- The function `http.Error`: a plain-text reply with the given status code. -/
def Error (w : ResponseWriter) (error : String) (code : Int) : ResponseWriter :=
  let w := w.SetHeader "Content-Type" "text/plain; charset=utf-8"
  let w := w.SetHeader "X-Content-Type-Options" "nosniff"
  let w := w.WriteHeader code
  w.Write (error ++ "\n")

/-- The type `http.HandlerFunc`, over an application state `α` (the store). -/
abbrev HandlerFunc (α : Type) := ResponseWriter → Request → α → ResponseWriter × α

/-- The function `authMiddleware` of `main.go`. -/
def authMiddleware {α : Type} (next : HandlerFunc α) (cnf : environment) : HandlerFunc α :=
  fun w r a =>
    let tokenString := r.Header.Get "X-API-KEY"
    if tokenString != cnf.ApiToken then
      let w := w.WriteHeader StatusUnauthorized
      let w := w.Write "Missing Authorization Header\n"
      (w, a)
    else
      next w r a

/-- A handler that behaves as `next` and records each request it is invoked with. -/
def spy {α : Type} (next : HandlerFunc α) : HandlerFunc (α × List Request) :=
  fun w r p => ((next w r p.1).1, ((next w r p.1).2, p.2 ++ [r]))

/-! ## JSON text -/

def lbrace : String := String.singleton (Char.ofNat 123)
def rbrace : String := String.singleton (Char.ofNat 125)
def dquote : String := String.singleton (Char.ofNat 34)

def jsonBool (b : Bool) : String := if b then "true" else "false"

/-- The members of a JSON object, given as (name, encoded value) pairs. -/
def jsonFields : List (String × String) → String
  | [] => ""
  | [(k, v)] => k ++ ":" ++ v
  | (k, v) :: rest => k ++ ":" ++ v ++ "," ++ jsonFields rest

/-- The text of a JSON object with the given encoded names and values. -/
def jsonObject (fields : List (String × String)) : String :=
  lbrace ++ jsonFields fields ++ rbrace

/-- The encoded name of a struct field, from its `json` tag. -/
def jsonTag (name : String) : String := dquote ++ name ++ dquote

/-- A Go `interface{}` value as `encoding/json` sees it: its JSON text, or `none`
when the value cannot be encoded. -/
structure Iface where
  json : Option String
  deriving DecidableEq, Repr

/-- The struct `jsonResponse` of `main.go`; `Data` is `nil` or points to a value. -/
structure jsonResponse where
  Success : Bool
  Message : String
  Data : Option Iface
  deriving DecidableEq, Repr

/-- The call `json.Marshal` on a `jsonResponse`; `quote` is the JSON encoding of
Go strings.  `none` is the error returned when the data cannot be encoded. -/
def jsonResponse.Marshal (quote : String → String) (r : jsonResponse) : Option String :=
  match r.Data with
  | none =>
    some (jsonObject [(jsonTag "success", jsonBool r.Success),
      (jsonTag "message", quote r.Message), (jsonTag "data", "null")])
  | some v =>
    match v.json with
    | none => none
    | some t =>
      some (jsonObject [(jsonTag "success", jsonBool r.Success),
        (jsonTag "message", quote r.Message), (jsonTag "data", t)])

/-- The function `returnResponse` of `main.go`.  The error of `json.Marshal` is
discarded; on error the encoded bytes are empty. -/
def returnResponse (quote : String → String) (code : Int) (msg : String) (data : Option Iface)
    (w : ResponseWriter) : ResponseWriter :=
  let success := if code ≥ 400 then false else true
  let respStruct : jsonResponse := ⟨success, msg, data⟩
  let resp := (respStruct.Marshal quote).getD ""
  let w := w.SetHeader "Content-Type" "application/json"
  let w := w.WriteHeader code
  let w := w.Write resp
  let w := w.Write "\n"
  w

/-- The envelope of the HTTP API in the words of the specification: a JSON object
with the members `success` (a boolean), `message` (a string) and `data` (JSON
text, or `null` when absent), in this order. -/
def envelopeText (quote : String → String) (success : Bool) (message : String)
    (data : Option String) : String :=
  jsonObject [(jsonTag "success", jsonBool success), (jsonTag "message", quote message),
    (jsonTag "data", data.getD "null")]

/-- The body is one envelope followed by a line feed. -/
def IsEnvelope (quote : String → String) (body : String) : Prop :=
  ∃ (success : Bool) (message : String) (data : Option String),
    body = envelopeText quote success message data ++ "\n"

/-! ## Health check -/

/-- The causes of an error of `os.Stat`. -/
inductive StatError where
  | ErrNotExist
  | ErrPermission
  | Other (msg : String)
  deriving DecidableEq, Repr

/-- What `os.Stat` reports about an existing path: a directory or another file. -/
structure FileInfo where
  IsDir : Bool
  deriving DecidableEq, Repr

/-- The error of a call that returns a value and an error, as in `_, err := f()`. -/
def errOf {α β : Type} : Except α β → Option α
  | Except.ok _ => none
  | Except.error e => some e

/-- The function `os.IsNotExist`, on the error returned by `os.Stat`. -/
def IsNotExist : Option StatError → Bool
  | some StatError.ErrNotExist => true
  | _ => false

/-- The outcomes of the external operations the health check performs.  An error
is given by its message; `none` is Go's `nil` error. -/
structure World where
  /-- The call `sql.Open("postgres", uri)`. -/
  sqlOpen : String → Option String
  /-- The call `db.PingContext(ctx)` on the database opened from the URI. -/
  PingContext : String → Option String
  /-- The call `db.QueryRowContext(ctx, "SELECT 1").Scan(&result)`: the error or
  the scanned integer. -/
  QueryRowScan : String → Except String Int
  /-- The call `amqp.Dial(uri)`. -/
  Dial : String → Option String
  /-- The call `conn.Channel()` on the connection dialled from the URI. -/
  ConnChannel : String → Option String
  /-- The call `os.Stat(path)`: the error, or the description of the file found. -/
  Stat : String → Except StatError FileInfo
  /-- The value of `time.Now()`, in the RFC 3339 text of its JSON encoding. -/
  Now : String
  /-- The call `env.UnmarshalFromEnviron`. -/
  UnmarshalFromEnviron : Except String environment

/-- A Go `map[string]string`, as the list of its entries. -/
abbrev StringMap := List (String × String)

/-- The assignment `m[key] = value`. -/
def mapSet (m : StringMap) (key value : String) : StringMap :=
  if m.any (fun e => e.1 == key) then
    m.map (fun e => if e.1 == key then (key, value) else e)
  else m ++ [(key, value)]

/-- The struct `HealthStatus` of `main.go`. -/
structure HealthStatus where
  Status : String
  Timestamp : String
  Checks : StringMap
  deriving DecidableEq, Repr

/-- The function `checkDatabase` of `main.go`. -/
def checkDatabase (world : World) (connectionString : String) : Option String :=
  match world.sqlOpen connectionString with
  | some err => some ("failed to connect: " ++ err)
  | none =>
    match world.PingContext connectionString with
    | some err => some ("ping failed: " ++ err)
    | none =>
      match world.QueryRowScan connectionString with
      | Except.error err => some ("query test failed: " ++ err)
      | Except.ok result =>
        if result != 1 then some ("unexpected query result: " ++ toString result)
        else none

/-- The function `checkRabbitMQ` of `main.go`. -/
def checkRabbitMQ (world : World) (connectionString : String) : Option String :=
  match world.Dial connectionString with
  | some err => some ("failed to connect: " ++ err)
  | none =>
    match world.ConnChannel connectionString with
    | some err => some ("failed to open channel: " ++ err)
    | none => none

/-- The function `runHealthCheck` of `main.go`. -/
def runHealthCheck (world : World) (cnf : environment) : HealthStatus :=
  let status : HealthStatus := ⟨"healthy", world.Now, []⟩
  let status :=
    match checkDatabase world cnf.PgsqlURI with
    | some err =>
      { status with Status := "unhealthy",
                    Checks := mapSet status.Checks "database" ("ERROR: " ++ err) }
    | none => { status with Checks := mapSet status.Checks "database" "OK" }
  let status :=
    match checkRabbitMQ world cnf.RabbitURI with
    | some err =>
      { status with Status := "unhealthy",
                    Checks := mapSet status.Checks "rabbitmq" ("ERROR: " ++ err) }
    | none => { status with Checks := mapSet status.Checks "rabbitmq" "OK" }
  let status :=
    if IsNotExist (errOf (world.Stat cnf.MigrationPath)) then
      { status with Status := "unhealthy",
                    Checks := mapSet status.Checks "migrations"
                      ("ERROR: Migration path not found: " ++ cnf.MigrationPath) }
    else { status with Checks := mapSet status.Checks "migrations" "OK" }
  status

/-- Insertion of a map entry into a list of entries sorted by key. -/
def insertByKey (e : String × String) : List (String × String) → List (String × String)
  | [] => [e]
  | f :: rest => if e.1 < f.1 then e :: f :: rest else f :: insertByKey e rest

/-- The entries of a map in the order of their keys, as `encoding/json` emits them. -/
def sortByKey (m : StringMap) : List (String × String) :=
  m.foldr insertByKey []

/-- The JSON encoding of a `HealthStatus`: the members `status`, `timestamp` and
`checks`, the latter an object with the map's entries sorted by key. -/
def HealthStatus.Marshal (quote : String → String) (h : HealthStatus) : String :=
  jsonObject [(jsonTag "status", quote h.Status),
    (jsonTag "timestamp", dquote ++ h.Timestamp ++ dquote),
    (jsonTag "checks", jsonObject ((sortByKey h.Checks).map (fun e => (quote e.1, quote e.2))))]

/-- The function `healthCheckHandler` of `main.go`; `Encode` writes the encoded
status followed by a line feed. -/
def healthCheckHandler (quote : String → String) (world : World) (w : ResponseWriter)
    (_r : Request) : ResponseWriter :=
  match world.UnmarshalFromEnviron with
  | Except.error _ => Error w "Configuration error" StatusInternalServerError
  | Except.ok cnf =>
    let status := runHealthCheck world cnf
    let w := w.SetHeader "Content-Type" "application/json"
    let w :=
      if status.Status == "healthy" then w.WriteHeader StatusOK
      else w.WriteHeader StatusServiceUnavailable
    w.Write (status.Marshal quote ++ "\n")

/-- The JSON encoding of a string that needs no escaping: the string in double
quotes. -/
def plainQuote (s : String) : String := dquote ++ s ++ dquote

/-! ## Sample inputs -/

/-- A configuration with a non-empty token. -/
def sampleEnv : environment := ⟨"postgres://db", "8080", "amqp://mq", "/migrations", "secret"⟩

/-- A configuration in which `API_TOKEN` is not set. -/
def openEnv : environment := ⟨"postgres://db", "8080", "amqp://mq", "/migrations", ""⟩

/-- A world in which database and broker answer and the migration path cannot be
inspected for lack of permission. -/
def deniedWorld : World :=
  ⟨fun _ => none, fun _ => none, fun _ => Except.ok 1, fun _ => none, fun _ => none,
    fun _ => Except.error StatError.ErrPermission, "2024-01-01T00:00:00Z", Except.ok sampleEnv⟩

/-- A world in which the database refuses the ping and the migration path is a
directory. -/
def downWorld : World :=
  ⟨fun _ => none, fun _ => some "connection refused", fun _ => Except.ok 1, fun _ => none,
    fun _ => none, fun _ => Except.ok ⟨true⟩, "2024-01-01T00:00:00Z", Except.ok sampleEnv⟩

/-- A handler that writes the method and the path and counts its invocations. -/
def echoHandler : HandlerFunc Nat :=
  fun w r n => (w.Write (r.Method ++ " " ++ r.Path), n + 1)

/-! ## Reading a sequence of calls -/

/-- The exchange a call declares, if it is an exchange declaration. -/
def Call.declaredExchange : Call → Option String
  | Call.exchangeDeclare n _ _ _ _ _ _ => some n
  | _ => none

/-- The queue a call declares, if it is a queue declaration. -/
def Call.declaredQueue : Call → Option String
  | Call.queueDeclare n _ _ _ _ _ => some n
  | _ => none

/-- The exchanges a call refers to without declaring them: the dead-letter
exchange in the arguments of a queue declaration, the exchange of a binding. -/
def Call.usedExchanges : Call → List String
  | Call.exchangeDeclare _ _ _ _ _ _ _ => []
  | Call.queueDeclare n d a x _ t => (Queue.deadLetterExchange ⟨n, d, a, x, t⟩).toList
  | Call.queueBind _ _ x _ _ => [x]

/-- The queues a call refers to without declaring them: the queue of a binding. -/
def Call.usedQueues : Call → List String
  | Call.queueBind n _ _ _ _ => [n]
  | _ => []

/-- Every exchange is declared before any queue argument or binding that names
it, and every queue is declared before it is bound. -/
def DependencyOrdered (log : List Call) : Prop :=
  ∀ (i : Nat) (c : Call), log.get? i = some c →
    (∀ x ∈ c.usedExchanges, ∃ d ∈ log.take i, d.declaredExchange = some x) ∧
    (∀ q ∈ c.usedQueues, ∃ d ∈ log.take i, d.declaredQueue = some q)

/-- The name and the arguments of the entity a call declares; `none` for a binding. -/
def Call.declared : Call → Option (String × Table)
  | Call.exchangeDeclare n _ _ _ _ _ t => some (n, t)
  | Call.queueDeclare n _ _ _ _ t => some (n, t)
  | Call.queueBind _ _ _ _ _ => none

/-- What a successful call establishes on the broker: the declared entity is
present with exactly the declared attributes, the binding is present between two
existing ends. -/
def Call.holds : Call → Broker → Prop
  | Call.exchangeDeclare n k d a i _ t, b => b.findExchange n = some ⟨n, k, d, a, i, t⟩
  | Call.queueDeclare n d a x _ t, b => b.findQueue n = some ⟨n, d, a, x, t⟩
  | Call.queueBind n k x _ t, b =>
    (b.findQueue n).isSome = true ∧ (b.findExchange x).isSome = true ∧
      (⟨n, k, x, t⟩ : Binding) ∈ b.bindings

/-- The broker `b1` extends `b`: everything found in `b` is found unchanged in `b1`. -/
def Broker.grows (b b1 : Broker) : Prop :=
  (∀ n x, b.findExchange n = some x → b1.findExchange n = some x) ∧
  (∀ n q, b.findQueue n = some q → b1.findQueue n = some q) ∧
  (∀ y, y ∈ b.bindings → y ∈ b1.bindings)

/-- A broker on which the worker queue already exists, declared non-durable. -/
def conflictingBroker : Broker :=
  ⟨[], [⟨"VideoParserWorkerQueue", false, false, false, []⟩], []⟩

/-! ## Basic facts about `initRabbit` -/

theorem initRabbit_eq_runCalls (ch : Channel σ ε) (s : σ) :
    initRabbit ch s = runCalls ch initRabbitCalls s := by
  simp only [initRabbit, initRabbitCalls, runCalls, Channel.issue]

theorem issue_logged (ch : Channel σ ε) (c : Call) (s : σ) (log : List Call) :
    ch.logged.issue c (s, log) = ((ch.issue c s).1, ((ch.issue c s).2, log ++ [c])) := by
  cases c <;> rfl

/-- When every call succeeds, the logged run succeeds too and records all calls. -/
theorem runCalls_logged_of_runAll (ch : Channel σ ε) :
    ∀ (cs : List Call) (s s1 : σ) (log : List Call), runAll ch cs s = some s1 →
      runCalls ch.logged cs (s, log) = (none, (s1, log ++ cs)) := by
  intro cs
  induction cs with
  | nil =>
    intro s s1 log h
    simp only [runAll, Option.some.injEq] at h
    simp [runCalls, h]
  | cons c cs ih =>
    intro s s1 log h
    rw [runAll] at h
    rw [runCalls, issue_logged]
    rcases hc : ch.issue c s with ⟨_ | e, s2⟩
    · rw [hc] at h
      simp only at h ⊢
      rw [ih s2 s1 (log ++ [c]) h]
      simp
    · rw [hc] at h
      simp at h

/-- The unlogged run stops at the first failing call with its error and state. -/
theorem runCalls_of_first_failure (ch : Channel σ ε) :
    ∀ (cs : List Call) (k : Nat) (s sk s1 : σ) (e : ε) (c : Call),
      runAll ch (cs.take k) s = some sk → cs.get? k = some c → ch.issue c sk = (some e, s1) →
      runCalls ch cs s = (some e, s1) := by
  intro cs
  induction cs with
  | nil => intro k s sk s1 e c _ hc _; simp at hc
  | cons d ds ih =>
    intro k s sk s1 e c hpre hc hfail
    cases k with
    | zero =>
      simp only [List.take_zero, runAll, Option.some.injEq] at hpre
      simp only [List.get?_cons_zero, Option.some.injEq] at hc
      subst hpre; subst hc
      rw [runCalls, hfail]
    | succ k =>
      simp only [List.take_succ_cons, runAll] at hpre
      simp only [List.get?_cons_succ] at hc
      rw [runCalls]
      rcases hd : ch.issue d s with ⟨_ | e1, s2⟩
      · rw [hd] at hpre
        exact ih k s2 sk s1 e c hpre hc hfail
      · rw [hd] at hpre
        simp at hpre

/-- The logged run stops at the first failing call, having recorded exactly the
calls up to and including it. -/
theorem runCalls_logged_of_first_failure (ch : Channel σ ε) :
    ∀ (cs : List Call) (k : Nat) (s sk s1 : σ) (e : ε) (c : Call) (log : List Call),
      runAll ch (cs.take k) s = some sk → cs.get? k = some c → ch.issue c sk = (some e, s1) →
      runCalls ch.logged cs (s, log) = (some e, (s1, log ++ cs.take (k + 1))) := by
  intro cs
  induction cs with
  | nil => intro k s sk s1 e c log _ hc _; simp at hc
  | cons d ds ih =>
    intro k s sk s1 e c log hpre hc hfail
    cases k with
    | zero =>
      simp only [List.take_zero, runAll, Option.some.injEq] at hpre
      simp only [List.get?_cons_zero, Option.some.injEq] at hc
      subst hpre; subst hc
      rw [runCalls, issue_logged, hfail]
      simp
    | succ k =>
      simp only [List.take_succ_cons, runAll] at hpre
      simp only [List.get?_cons_succ] at hc
      rw [runCalls, issue_logged]
      rcases hd : ch.issue d s with ⟨_ | e1, s2⟩
      · rw [hd] at hpre
        simp only at hpre ⊢
        rw [ih k s2 sk s1 e c (log ++ [d]) hpre hc hfail]
        simp
      · rw [hd] at hpre
        simp at hpre

/-- A run without error is a run in which every call succeeded. -/
theorem runAll_of_runCalls_none (ch : Channel σ ε) :
    ∀ (cs : List Call) (s : σ), (runCalls ch cs s).1 = none →
      runAll ch cs s = some (runCalls ch cs s).2 := by
  intro cs
  induction cs with
  | nil => intro s _; rfl
  | cons c cs ih =>
    intro s h
    rw [runCalls] at h ⊢
    rw [runAll]
    rcases hc : ch.issue c s with ⟨_ | e, s2⟩
    · rw [hc] at h
      exact ih s2 h
    · rw [hc] at h
      simp at h

theorem runCalls_of_runAll (ch : Channel σ ε) (cs : List Call) (s s1 : σ)
    (h : runAll ch cs s = some s1) : runCalls ch cs s = (none, s1) := by
  induction cs generalizing s with
  | nil => simp only [runAll, Option.some.injEq] at h; simp [runCalls, h]
  | cons c cs ih =>
    rw [runAll] at h
    rw [runCalls]
    rcases hc : ch.issue c s with ⟨_ | e, s2⟩
    · rw [hc] at h
      exact ih s2 h
    · rw [hc] at h
      simp at h

/-! ## Facts about the modelled broker -/

theorem Broker.grows_refl (b : Broker) : b.grows b :=
  ⟨fun _ _ h => h, fun _ _ h => h, fun _ h => h⟩

theorem Broker.grows_trans {b b1 b2 : Broker} (h1 : b.grows b1) (h2 : b1.grows b2) :
    b.grows b2 :=
  ⟨fun n x h => h2.1 n x (h1.1 n x h), fun n q h => h2.2.1 n q (h1.2.1 n q h),
    fun y h => h2.2.2 y (h1.2.2 y h)⟩

theorem Call.holds_of_grows {c : Call} {b b1 : Broker} (hext : b.grows b1)
    (h : c.holds b) : c.holds b1 := by
  cases c with
  | exchangeDeclare n k d a i w t => exact hext.1 _ _ h
  | queueDeclare n d a x w t => exact hext.2.1 _ _ h
  | queueBind n k x w t =>
    obtain ⟨hq, hx, hb⟩ := h
    refine ⟨?_, ?_, hext.2.2 _ hb⟩
    · obtain ⟨q, hq1⟩ := Option.isSome_iff_exists.mp hq
      rw [hext.2.1 _ _ hq1]; rfl
    · obtain ⟨y, hx1⟩ := Option.isSome_iff_exists.mp hx
      rw [hext.1 _ _ hx1]; rfl

/-- A call whose effect is already established succeeds and changes nothing. -/
theorem issue_of_holds {c : Call} {b : Broker} (h : c.holds b) : amqp.issue c b = (none, b) := by
  cases c with
  | exchangeDeclare n k d a i w t =>
    simp only [Call.holds] at h
    simp [Channel.issue, amqp, Broker.exchangeDeclare, h]
  | queueDeclare n d a x w t =>
    simp only [Call.holds] at h
    simp [Channel.issue, amqp, Broker.queueDeclare, h]
  | queueBind n k x w t =>
    obtain ⟨hq, hx, hb⟩ := h
    obtain ⟨q, hq1⟩ := Option.isSome_iff_exists.mp hq
    obtain ⟨y, hx1⟩ := Option.isSome_iff_exists.mp hx
    simp [Channel.issue, amqp, Broker.queueBind, hq1, hx1, hb]

/-- A successful call only extends the broker and establishes its effect. -/
theorem grows_and_holds_of_issue {c : Call} {b b1 : Broker}
    (h : amqp.issue c b = (none, b1)) : b.grows b1 ∧ c.holds b1 := by
  cases c with
  | exchangeDeclare n k d a i w t =>
    simp only [Channel.issue, amqp, Broker.exchangeDeclare] at h
    cases hf : b.findExchange n with
    | some y =>
      rw [hf] at h
      by_cases hy : y = ⟨n, k, d, a, i, t⟩
      · simp only [hy, if_true, Prod.mk.injEq, true_and] at h
        subst h
        exact ⟨Broker.grows_refl b, by simpa [Call.holds, hy] using hf⟩
      · simp [hy] at h
    | none =>
      rw [hf] at h
      simp only [Prod.mk.injEq, true_and] at h
      subst h
      simp only [Broker.findExchange] at hf
      refine ⟨⟨?_, fun _ _ hq => hq, fun _ hy => hy⟩, ?_⟩
      · intro m x hx
        simp only [Broker.findExchange] at hx ⊢
        simp [List.find?_append, hx]
      · simp [Call.holds, Broker.findExchange, List.find?_append, hf]
  | queueDeclare n d a x w t =>
    simp only [Channel.issue, amqp, Broker.queueDeclare] at h
    cases hf : b.findQueue n with
    | some y =>
      rw [hf] at h
      by_cases hy : y = ⟨n, d, a, x, t⟩
      · simp only [hy, if_true, Prod.mk.injEq, true_and] at h
        subst h
        exact ⟨Broker.grows_refl b, by simpa [Call.holds, hy] using hf⟩
      · simp [hy] at h
    | none =>
      rw [hf] at h
      simp only [Prod.mk.injEq, true_and] at h
      subst h
      simp only [Broker.findQueue] at hf
      refine ⟨⟨fun _ _ hx => hx, ?_, fun _ hy => hy⟩, ?_⟩
      · intro m q hq
        simp only [Broker.findQueue] at hq ⊢
        simp [List.find?_append, hq]
      · simp [Call.holds, Broker.findQueue, List.find?_append, hf]
  | queueBind n k x w t =>
    simp only [Channel.issue, amqp, Broker.queueBind] at h
    cases hq : b.findQueue n with
    | none => rw [hq] at h; simp at h
    | some q =>
      cases hx : b.findExchange x with
      | none => rw [hq, hx] at h; simp at h
      | some y =>
        rw [hq, hx] at h
        by_cases hb : (⟨n, k, x, t⟩ : Binding) ∈ b.bindings
        · simp only [hb, if_true, Prod.mk.injEq, true_and] at h
          subst h
          exact ⟨Broker.grows_refl b, by simp [Call.holds, hq, hx, hb]⟩
        · simp only [hb, if_false, Prod.mk.injEq, true_and] at h
          subst h
          refine ⟨⟨fun _ _ h1 => h1, fun _ _ h1 => h1, ?_⟩, ?_⟩
          · intro z hz
            simp [hz]
          · have hq1 : Broker.findQueue { b with bindings := b.bindings ++ [⟨n, k, x, t⟩] } n
                = some q := hq
            have hx1 : Broker.findExchange { b with bindings := b.bindings ++ [⟨n, k, x, t⟩] } x
                = some y := hx
            simp [Call.holds, hq1, hx1]

/-- After a run without error the broker extends the initial one and the effect
of every call of the run is established. -/
theorem holds_of_runCalls :
    ∀ (cs : List Call) (b b1 : Broker), runCalls amqp cs b = (none, b1) →
      b.grows b1 ∧ ∀ c ∈ cs, c.holds b1 := by
  intro cs
  induction cs with
  | nil =>
    intro b b1 h
    simp only [runCalls, Prod.mk.injEq, true_and] at h
    subst h
    exact ⟨Broker.grows_refl b, by simp⟩
  | cons c cs ih =>
    intro b b1 h
    rw [runCalls] at h
    rcases hc : amqp.issue c b with ⟨_ | e, b2⟩
    · rw [hc] at h
      obtain ⟨hext, hall⟩ := ih b2 b1 h
      obtain ⟨hext0, hc0⟩ := grows_and_holds_of_issue hc
      refine ⟨Broker.grows_trans hext0 hext, ?_⟩
      intro d hd
      rcases List.mem_cons.mp hd with rfl | hd
      · exact Call.holds_of_grows hext hc0
      · exact hall d hd
    · rw [hc] at h
      simp at h

/-- A run of calls whose effects are all established succeeds and changes nothing. -/
theorem runCalls_of_holds :
    ∀ (cs : List Call) (b : Broker), (∀ c ∈ cs, c.holds b) → runCalls amqp cs b = (none, b) := by
  intro cs
  induction cs with
  | nil => intro b _; rfl
  | cons c cs ih =>
    intro b h
    rw [runCalls, issue_of_holds (h c (List.mem_cons_self c cs))]
    exact ih b (fun d hd => h d (List.mem_cons_of_mem c hd))

/-! ## Provisioning: theorems -/

/-- C1: if the first `k` calls of `initRabbit` succeed (`k < 8`) and the next call
fails with error `e`, then `initRabbit` returns exactly `e`, in the broker state
left by the failing call, and the calls issued are exactly the first `k + 1`; and
`initRabbit` returns no error only when all eight calls succeeded. -/
theorem initRabbit_aborts_at_first_failure (ch : Channel σ ε) (s : σ) :
    (∀ (k : Nat) (c : Call) (sk s1 : σ) (e : ε), k < 8 →
        runAll ch (initRabbitCalls.take k) s = some sk →
        initRabbitCalls.get? k = some c →
        ch.issue c sk = (some e, s1) →
        initRabbit ch s = (some e, s1) ∧
        initRabbit ch.logged (s, []) = (some e, (s1, initRabbitCalls.take (k + 1))) ∧
        (initRabbitCalls.take (k + 1)).length = k + 1) ∧
    ((initRabbit ch s).1 = none →
        initRabbitCalls.length = 8 ∧
        ∃ s8, runAll ch initRabbitCalls s = some s8 ∧ initRabbit ch s = (none, s8)) := by
  constructor
  · intro k c sk s1 e hk hpre hc hfail
    refine ⟨?_, ?_, ?_⟩
    · rw [initRabbit_eq_runCalls]
      exact runCalls_of_first_failure ch _ k s sk s1 e c hpre hc hfail
    · rw [initRabbit_eq_runCalls]
      simpa using runCalls_logged_of_first_failure ch _ k s sk s1 e c [] hpre hc hfail
    · have : initRabbitCalls.length = 8 := rfl
      rw [List.length_take, this]
      omega
  · intro h
    rw [initRabbit_eq_runCalls] at h ⊢
    have hall := runAll_of_runCalls_none ch _ s h
    exact ⟨rfl, _, hall, runCalls_of_runAll ch _ s _ hall⟩

theorem initRabbit_aborts_at_first_failure_witness :
    initRabbit amqp.logged (conflictingBroker, []) =
      (some (AmqpError.PreconditionFailed "VideoParserWorkerQueue"),
        ({ conflictingBroker with exchanges :=
            [⟨"VideoParserExchange", "fanout", true, false, false, []⟩,
             ⟨"VideoParserRetryExchange", "fanout", true, false, false, []⟩] },
         [ Call.exchangeDeclare "VideoParserExchange" "fanout" true false false false [],
           Call.exchangeDeclare "VideoParserRetryExchange" "fanout" true false false false [],
           Call.queueDeclare "VideoParserWorkerQueue" true false false false
             [("x-dead-letter-exchange", Field.str "VideoParserRetryExchange")] ])) :=
  ((initRabbit_aborts_at_first_failure amqp conflictingBroker).1 2
    (Call.queueDeclare "VideoParserWorkerQueue" true false false false
      [("x-dead-letter-exchange", Field.str "VideoParserRetryExchange")])
    { conflictingBroker with exchanges :=
        [⟨"VideoParserExchange", "fanout", true, false, false, []⟩,
         ⟨"VideoParserRetryExchange", "fanout", true, false, false, []⟩] }
    _ _ (by decide) (by decide) (by decide) (by decide)).2.1

theorem initRabbitCalls_dependencyOrdered : DependencyOrdered initRabbitCalls := by
  intro i c hc
  have hi : i < 8 := by
    have h1 := (List.get?_eq_some.mp hc).1
    simpa [initRabbitCalls] using h1
  interval_cases i <;>
    simp only [initRabbitCalls, List.get?_cons_zero, List.get?_cons_succ, Option.some.injEq] at hc <;>
    subst hc <;> decide

/-- The calls recorded by a run of `initRabbit` that returned no error. -/
theorem initRabbit_logged_of_success (ch : Channel σ ε) (s : σ)
    (h : (initRabbit ch s).1 = none) :
    initRabbit ch.logged (s, []) = (none, ((initRabbit ch s).2, initRabbitCalls)) := by
  rw [initRabbit_eq_runCalls] at h ⊢
  rw [initRabbit_eq_runCalls]
  simpa using runCalls_logged_of_runAll ch _ s _ [] (runAll_of_runCalls_none ch _ s h)

/-- C2: on the topology that a successful `initRabbit` leaves on an empty broker,
a message published to the primary exchange reaches exactly the worker queue and
the archive queue, once each; a message dead-lettered from the worker queue
reaches exactly the retry queue; a message expiring in the retry queue reaches
exactly the worker queue and the archive queue, once each; and the archive queue
has no dead-letter target. -/
theorem initRabbit_topology_routes :
    (initRabbit amqp Broker.empty).1 = none ∧
    (initRabbit amqp Broker.empty).2.route "VideoParserExchange" =
      ["VideoParserWorkerQueue", "VideoParserArchiveQueue"] ∧
    (initRabbit amqp Broker.empty).2.deadLetter "VideoParserWorkerQueue" =
      ["VideoParserWorkerRetryQueue"] ∧
    (initRabbit amqp Broker.empty).2.expire "VideoParserWorkerRetryQueue" =
      some ["VideoParserWorkerQueue", "VideoParserArchiveQueue"] ∧
    ((initRabbit amqp Broker.empty).2.findQueue "VideoParserArchiveQueue").map
      Queue.deadLetterExchange = some none ∧
    (initRabbit amqp Broker.empty).2.deadLetter "VideoParserArchiveQueue" = [] := by
  decide

/-- C3: on every broker state, when a first run of `initRabbit` returns no error,
a second run on the state it left returns no error either and leaves exactly
that state: the same exchanges, queues with their arguments and bindings, none
added and none duplicated. -/
theorem initRabbit_idempotent (b b1 : Broker) (h : initRabbit amqp b = (none, b1)) :
    initRabbit amqp b1 = (none, b1) := by
  rw [initRabbit_eq_runCalls] at h ⊢
  exact runCalls_of_holds _ b1 (holds_of_runCalls _ b b1 h).2

theorem initRabbit_idempotent_witness :
    initRabbit amqp (initRabbit amqp Broker.empty).2 = (none, (initRabbit amqp Broker.empty).2) :=
  initRabbit_idempotent Broker.empty (initRabbit amqp Broker.empty).2 (by decide)

/-- C4: when `initRabbit` returns no error it has issued exactly eight calls, in
this order: the two exchange declarations (fan-out, durable, not auto-delete),
the three queue declarations (durable, not auto-delete, not exclusive), then the
three bindings, all with the same key; and the sequence is dependency ordered. -/
theorem initRabbit_calls_in_dependency_order (ch : Channel σ ε) (s : σ)
    (h : (initRabbit ch s).1 = none) :
    (initRabbit ch.logged (s, [])).1 = none ∧
    (initRabbit ch.logged (s, [])).2.2 =
      [ Call.exchangeDeclare "VideoParserExchange" "fanout" true false false false [],
        Call.exchangeDeclare "VideoParserRetryExchange" "fanout" true false false false [],
        Call.queueDeclare "VideoParserWorkerQueue" true false false false
          [("x-dead-letter-exchange", Field.str "VideoParserRetryExchange")],
        Call.queueDeclare "VideoParserWorkerRetryQueue" true false false false
          [("x-dead-letter-exchange", Field.str "VideoParserExchange"),
           ("x-message-ttl", Field.int 60000)],
        Call.queueDeclare "VideoParserArchiveQueue" true false false false [],
        Call.queueBind "VideoParserWorkerQueue" "*" "VideoParserExchange" false [],
        Call.queueBind "VideoParserArchiveQueue" "*" "VideoParserExchange" false [],
        Call.queueBind "VideoParserWorkerRetryQueue" "*" "VideoParserRetryExchange" false [] ] ∧
    (initRabbit ch.logged (s, [])).2.2.length = 8 ∧
    DependencyOrdered (initRabbit ch.logged (s, [])).2.2 := by
  rw [initRabbit_logged_of_success ch s h]
  exact ⟨rfl, rfl, rfl, initRabbitCalls_dependencyOrdered⟩

theorem initRabbit_calls_in_dependency_order_witness :
    (initRabbit amqp.logged (Broker.empty, [])).2.2.length = 8 ∧
    DependencyOrdered (initRabbit amqp.logged (Broker.empty, [])).2.2 :=
  (initRabbit_calls_in_dependency_order amqp Broker.empty (by decide)).2.2

/-- C5, as the code has it: the entities that a successful `initRabbit` declares
are the exchanges `VideoParserExchange` and `VideoParserRetryExchange` without
arguments, the queue `VideoParserWorkerQueue` with dead-letter exchange
`VideoParserRetryExchange`, the queue `VideoParserWorkerRetryQueue` with
dead-letter exchange `VideoParserExchange` and message TTL 60000 ms, and the
queue `VideoParserArchiveQueue` without arguments. -/
theorem initRabbit_declared_entities (ch : Channel σ ε) (s : σ)
    (h : (initRabbit ch s).1 = none) :
    (initRabbit ch.logged (s, [])).2.2.filterMap Call.declared =
      [ ("VideoParserExchange", []),
        ("VideoParserRetryExchange", []),
        ("VideoParserWorkerQueue",
          [("x-dead-letter-exchange", Field.str "VideoParserRetryExchange")]),
        ("VideoParserWorkerRetryQueue",
          [("x-dead-letter-exchange", Field.str "VideoParserExchange"),
           ("x-message-ttl", Field.int 60000)]),
        ("VideoParserArchiveQueue", []) ] := by
  rw [initRabbit_logged_of_success ch s h]
  rfl

theorem initRabbit_declared_entities_witness :
    ((initRabbit amqp.logged (Broker.empty, [])).2.2.filterMap Call.declared).map Prod.fst =
      [ "VideoParserExchange", "VideoParserRetryExchange", "VideoParserWorkerQueue",
        "VideoParserWorkerRetryQueue", "VideoParserArchiveQueue" ] :=
  congrArg (List.map Prod.fst) (initRabbit_declared_entities amqp Broker.empty (by decide))

/-- C5, as stated, fails: the run of `initRabbit` on an empty broker succeeds, and
the entities it declares are not those named `PrimaryExchange`, `RetryExchange`,
`WorkerQueue`, `RetryQueue` and `ArchiveQueue`; none of these names is declared
at all. -/
theorem initRabbit_declared_names_counterexample :
    (initRabbit amqp.logged (Broker.empty, [])).1 = none ∧
    (initRabbit amqp.logged (Broker.empty, [])).2.2.filterMap Call.declared ≠
      [ ("PrimaryExchange", []),
        ("RetryExchange", []),
        ("WorkerQueue", [("x-dead-letter-exchange", Field.str "RetryExchange")]),
        ("RetryQueue",
          [("x-dead-letter-exchange", Field.str "PrimaryExchange"),
           ("x-message-ttl", Field.int 60000)]),
        ("ArchiveQueue", []) ] ∧
    ∀ n ∈ ["PrimaryExchange", "RetryExchange", "WorkerQueue", "RetryQueue", "ArchiveQueue"],
      n ∉ ((initRabbit amqp.logged (Broker.empty, [])).2.2.filterMap Call.declared).map
        Prod.fst := by
  decide

/-! ## Health check: theorems -/

theorem migration_message (path : String) :
    "ERROR: Migration path not found: " ++ path =
      "ERROR: " ++ ("Migration path not found: " ++ path) := by
  rw [← String.append_assoc]
  rfl

/-- C6: `runHealthCheck` returns status `healthy` exactly when the database check,
the broker check and the migration-path check all pass, and `unhealthy`
otherwise; the checks map has exactly the keys `database`, `rabbitmq` and
`migrations`; the entry of a passing check is `OK` and the entry of a failing
check starts with `ERROR: `, whatever the outcome of the other checks. -/
theorem runHealthCheck_reports_each_check (world : World) (cnf : environment) :
    ((runHealthCheck world cnf).Status = "healthy" ↔
      (checkDatabase world cnf.PgsqlURI = none ∧ checkRabbitMQ world cnf.RabbitURI = none ∧
        IsNotExist (errOf (world.Stat cnf.MigrationPath)) = false)) ∧
    ((runHealthCheck world cnf).Status ≠ "healthy" →
      (runHealthCheck world cnf).Status = "unhealthy") ∧
    (runHealthCheck world cnf).Checks.map Prod.fst = ["database", "rabbitmq", "migrations"] ∧
    (runHealthCheck world cnf).Checks.lookup "database" =
      some (match checkDatabase world cnf.PgsqlURI with
        | none => "OK"
        | some err => "ERROR: " ++ err) ∧
    (runHealthCheck world cnf).Checks.lookup "rabbitmq" =
      some (match checkRabbitMQ world cnf.RabbitURI with
        | none => "OK"
        | some err => "ERROR: " ++ err) ∧
    (runHealthCheck world cnf).Checks.lookup "migrations" =
      some (if IsNotExist (errOf (world.Stat cnf.MigrationPath)) then
          "ERROR: " ++ ("Migration path not found: " ++ cnf.MigrationPath)
        else "OK") := by
  unfold runHealthCheck
  cases checkDatabase world cnf.PgsqlURI <;> cases checkRabbitMQ world cnf.RabbitURI <;>
    cases IsNotExist (errOf (world.Stat cnf.MigrationPath)) <;>
    simp [mapSet, List.lookup, migration_message]

/-- C10: when `os.Stat` on the migration path succeeds, whatever kind of file it
finds, or fails with an error other than not-exist, the `migrations` entry is
`OK` and the status is `healthy` exactly when the other two checks pass. -/
theorem runHealthCheck_migrations_fail_only_notExist (world : World) (cnf : environment)
    (h : world.Stat cnf.MigrationPath ≠ Except.error StatError.ErrNotExist) :
    (runHealthCheck world cnf).Checks.lookup "migrations" = some "OK" ∧
    ((runHealthCheck world cnf).Status = "healthy" ↔
      (checkDatabase world cnf.PgsqlURI = none ∧ checkRabbitMQ world cnf.RabbitURI = none)) := by
  have hne : IsNotExist (errOf (world.Stat cnf.MigrationPath)) = false := by
    rcases hs : world.Stat cnf.MigrationPath with e | info
    · cases e
      · exact absurd hs h
      · rfl
      · rfl
    · rfl
  unfold runHealthCheck
  rw [hne]
  cases checkDatabase world cnf.PgsqlURI <;> cases checkRabbitMQ world cnf.RabbitURI <;>
    simp [mapSet, List.lookup]

theorem runHealthCheck_migrations_fail_only_notExist_witness :
    (runHealthCheck deniedWorld sampleEnv).Checks.lookup "migrations" = some "OK" ∧
    ((runHealthCheck deniedWorld sampleEnv).Status = "healthy" ↔
      (checkDatabase deniedWorld sampleEnv.PgsqlURI = none ∧
        checkRabbitMQ deniedWorld sampleEnv.RabbitURI = none)) :=
  runHealthCheck_migrations_fail_only_notExist deniedWorld sampleEnv
    (by simp [deniedWorld, sampleEnv])

/-! ## Facts about the response writer -/

theorem canonical_api_key : CanonicalMIMEHeaderKey "X-API-KEY" = "X-Api-Key" := by decide

theorem writeHeader_body (w : ResponseWriter) (code : Int) : (w.WriteHeader code).body = w.body := by
  unfold ResponseWriter.WriteHeader
  cases w.status <;> rfl

theorem writeHeader_head (w : ResponseWriter) (code : Int) : (w.WriteHeader code).head = w.head := by
  unfold ResponseWriter.WriteHeader
  cases w.status <;> rfl

theorem writeHeader_status_of_none (w : ResponseWriter) (code : Int) (h : w.status = none) :
    (w.WriteHeader code).status = some code := by
  simp [ResponseWriter.WriteHeader, h]

theorem writeHeader_of_some (w : ResponseWriter) (code c : Int) (h : w.status = some c) :
    w.WriteHeader code = w := by
  simp [ResponseWriter.WriteHeader, h]

theorem write_status (w : ResponseWriter) (data : String) :
    (w.Write data).status = (w.WriteHeader StatusOK).status := by
  unfold ResponseWriter.Write
  cases h : (w.WriteHeader StatusOK).status with
  | none => simp [h]
  | some c =>
    simp only []
    by_cases hb : (bodyAllowedForStatus c && !(w.WriteHeader StatusOK).head) = true
    · simp [hb, h]
    · simp [hb, h]

/-- On a writer with a status that allows a body, answering a request other than
`HEAD`, the data written is appended to the body. -/
theorem write_body_of_allowed (w : ResponseWriter) (data : String) (c : Int)
    (hs : w.status = some c) (ha : bodyAllowedForStatus c = true) (hh : w.head = false) :
    (w.Write data).body = w.body ++ data := by
  simp [ResponseWriter.Write, writeHeader_of_some w StatusOK c hs, hs, ha, hh]

/-! ## Authentication: theorems -/

/-- C7: when the value of the `X-API-KEY` header differs from the configured
token, the handler returned by `authMiddleware` writes status 401 with its own
body, never invokes the wrapped handler and leaves the application state
untouched; when the value equals the token, the wrapped handler is invoked
exactly once, with the same request and the writer as received, and the response
is the one the wrapped handler produced. -/
theorem authMiddleware_guards {α : Type} (next : HandlerFunc α) (cnf : environment)
    (w : ResponseWriter) (r : Request) (a : α) :
    (r.Header.Get "X-API-KEY" ≠ cnf.ApiToken →
      authMiddleware (spy next) cnf w r (a, []) =
        ((w.WriteHeader 401).Write "Missing Authorization Header\n", (a, [])) ∧
      (w.status = none →
        (authMiddleware (spy next) cnf w r (a, [])).1.status = some 401)) ∧
    (r.Header.Get "X-API-KEY" = cnf.ApiToken →
      authMiddleware (spy next) cnf w r (a, []) = ((next w r a).1, ((next w r a).2, [r])) ∧
      authMiddleware next cnf w r a = next w r a) := by
  constructor
  · intro h
    have h1 : authMiddleware (spy next) cnf w r (a, []) =
        ((w.WriteHeader 401).Write "Missing Authorization Header\n", (a, [])) := by
      simp [authMiddleware, h, StatusUnauthorized]
    refine ⟨h1, ?_⟩
    intro hw
    rw [h1]
    have h401 := writeHeader_status_of_none w 401 hw
    rw [write_status, writeHeader_of_some _ StatusOK 401 h401, h401]
  · intro h
    simp [authMiddleware, h, spy]

theorem authMiddleware_guards_witness :
    authMiddleware (spy echoHandler) sampleEnv ResponseWriter.fresh
        ⟨"GET", "/requests", ⟨[("X-Api-Key", ["wrong"])]⟩, ""⟩ ((0 : Nat), []) =
      (⟨⟨[]⟩, some 401, "Missing Authorization Header\n", false⟩, ((0 : Nat), [])) :=
  ((authMiddleware_guards echoHandler sampleEnv ResponseWriter.fresh
    ⟨"GET", "/requests", ⟨[("X-Api-Key", ["wrong"])]⟩, ""⟩ (0 : Nat)).1 (by decide)).1

/-- C9: when the configured token is the empty string and the request carries no
`X-API-KEY` header, that is nothing is stored under `X-Api-Key`, the canonical
name under which the lookup of `X-API-KEY` goes, the header lookup yields the
empty string and `authMiddleware` invokes the wrapped handler, once, instead of
answering 401: the response and the state are those of the wrapped handler. -/
theorem authMiddleware_empty_token {α : Type} (next : HandlerFunc α) (cnf : environment)
    (w : ResponseWriter) (r : Request) (a : α) (htoken : cnf.ApiToken = "")
    (hheader : r.Header.entries.lookup "X-Api-Key" = none) :
    r.Header.Get "X-API-KEY" = "" ∧
    authMiddleware next cnf w r a = next w r a ∧
    authMiddleware (spy next) cnf w r (a, []) = ((next w r a).1, ((next w r a).2, [r])) := by
  have hget : r.Header.Get "X-API-KEY" = "" := by
    simp [Header.Get, canonical_api_key, hheader]
  refine ⟨hget, ?_, ?_⟩
  · simp [authMiddleware, hget, htoken]
  · simp [authMiddleware, hget, htoken, spy]

theorem authMiddleware_empty_token_witness :
    authMiddleware echoHandler openEnv ResponseWriter.fresh
        ⟨"GET", "/requests", ⟨[("Accept", ["text/html"])]⟩, ""⟩ (0 : Nat) =
      (⟨⟨[]⟩, some 200, "GET /requests", false⟩, 1) :=
  (authMiddleware_empty_token echoHandler openEnv ResponseWriter.fresh
    ⟨"GET", "/requests", ⟨[("Accept", ["text/html"])]⟩, ""⟩ (0 : Nat) (by decide) (by decide)).2.1

/-! ## Response bodies: theorems -/

theorem jsonObject_tag_data (name : String) (value : String)
    (rest : List (String × String)) (tail : String) :
    ∃ more : List Char, (jsonObject ((jsonTag name, value) :: rest) ++ tail).data =
      Char.ofNat 123 :: Char.ofNat 34 :: (name.data ++ more) := by
  cases rest with
  | nil =>
    exact ⟨_, by
      simp [jsonObject, jsonFields, jsonTag, lbrace, dquote, String.data_append,
        String.singleton]; rfl⟩
  | cons f fs =>
    exact ⟨_, by
      simp [jsonObject, jsonFields, jsonTag, lbrace, dquote, String.data_append,
        String.singleton]; rfl⟩

/-- The fourth character of every envelope is the `u` of `success`. -/
theorem envelope_fourth_char (quote : String → String) (body : String)
    (h : IsEnvelope quote body) : body.data.get? 3 = some (Char.ofNat 117) := by
  obtain ⟨success, message, data, rfl⟩ := h
  obtain ⟨more, hmore⟩ := jsonObject_tag_data "success" (jsonBool success)
    [(jsonTag "message", quote message), (jsonTag "data", data.getD "null")] "\n"
  rw [envelopeText, hmore]
  rfl

theorem empty_append (t : String) : "" ++ t = t := by
  apply String.ext
  simp [String.data_append]

theorem write_of_allowed (w : ResponseWriter) (data : String) (c : Int)
    (hs : w.status = some c) (ha : bodyAllowedForStatus c = true) (hh : w.head = false) :
    w.Write data = { w with body := w.body ++ data } := by
  simp [ResponseWriter.Write, writeHeader_of_some w StatusOK c hs, hs, ha, hh]

theorem bodyAllowed_of_range (code : Int) (h200 : 200 ≤ code) (h204 : code ≠ 204)
    (h304 : code ≠ 304) : bodyAllowedForStatus code = true := by
  have h1 : ¬ (100 ≤ code ∧ code ≤ 199) := by omega
  simp [bodyAllowedForStatus, h1, h204, h304]

/-- The two writes of a reply: status line, then text and a line feed. -/
theorem write_twice (w : ResponseWriter) (code : Int) (text : String)
    (hstatus : w.status = none) (hbody : w.body = "") (hhead : w.head = false)
    (ha : bodyAllowedForStatus code = true) :
    (((w.WriteHeader code).Write text).Write "\n").body = text ++ "\n" ∧
    (((w.WriteHeader code).Write text).Write "\n").status = some code := by
  have hs1 : (w.WriteHeader code).status = some code := writeHeader_status_of_none w code hstatus
  have hh1 : (w.WriteHeader code).head = false := by rw [writeHeader_head, hhead]
  have hb1 : (w.WriteHeader code).body = "" := by rw [writeHeader_body, hbody]
  rw [write_of_allowed (w.WriteHeader code) text code hs1 ha hh1]
  have e2 := write_of_allowed
    { w.WriteHeader code with body := (w.WriteHeader code).body ++ text } "\n" code hs1 ha hh1
  rw [e2]
  simp [hb1, hs1, empty_append]

theorem returnResponse_body (quote : String → String) (code : Int) (msg : String)
    (data : Option Iface) (w : ResponseWriter) (hstatus : w.status = none)
    (hbody : w.body = "") (hhead : w.head = false) (ha : bodyAllowedForStatus code = true)
    (hdata : ∀ v, data = some v → v.json.isSome = true) :
    (returnResponse quote code msg data w).body =
      envelopeText quote (decide (code < 400)) msg (data.bind Iface.json) ++ "\n" ∧
    (returnResponse quote code msg data w).status = some code := by
  have hsucc : (if code ≥ 400 then false else true) = decide (code < 400) := by
    by_cases hc : code ≥ 400
    · have : ¬ code < 400 := by omega
      simp [hc, this]
    · have : code < 400 := by omega
      simp [hc, this]
  have hresp : ((⟨if code ≥ 400 then false else true, msg, data⟩ : jsonResponse).Marshal
      quote).getD "" = envelopeText quote (decide (code < 400)) msg (data.bind Iface.json) := by
    cases data with
    | none => simp [jsonResponse.Marshal, hsucc, envelopeText]
    | some v =>
      obtain ⟨t, ht⟩ := Option.isSome_iff_exists.mp (hdata v rfl)
      simp [jsonResponse.Marshal, hsucc, envelopeText, ht]
  have h2 := write_twice (w.SetHeader "Content-Type" "application/json") code
    (((⟨if code ≥ 400 then false else true, msg, data⟩ : jsonResponse).Marshal quote).getD "")
    hstatus hbody hhead ha
  have hdef : returnResponse quote code msg data w =
      (((w.SetHeader "Content-Type" "application/json").WriteHeader code).Write
        (((⟨if code ≥ 400 then false else true, msg, data⟩ : jsonResponse).Marshal
          quote).getD "")).Write "\n" := rfl
  rw [hdef, hresp]
  rw [hresp] at h2
  exact h2

theorem healthCheckHandler_body (quote : String → String) (world : World) (w : ResponseWriter)
    (r : Request) (hstatus : w.status = none) (hbody : w.body = "") (hhead : w.head = false) :
    (healthCheckHandler quote world w r).body =
      match world.UnmarshalFromEnviron with
      | Except.error _ => "Configuration error\n"
      | Except.ok cnf => (runHealthCheck world cnf).Marshal quote ++ "\n" := by
  unfold healthCheckHandler
  cases world.UnmarshalFromEnviron with
  | error e =>
    simp only [Error]
    have hs1 := writeHeader_status_of_none
      ((w.SetHeader "Content-Type" "text/plain; charset=utf-8").SetHeader
        "X-Content-Type-Options" "nosniff") StatusInternalServerError hstatus
    rw [write_of_allowed _ _ StatusInternalServerError hs1 (by decide)
      (by rw [writeHeader_head]; exact hhead)]
    simp only [writeHeader_body]
    show w.body ++ _ = _
    rw [hbody, empty_append]
    rfl
  | ok cnf =>
    simp only []
    split
    · have hs1 := writeHeader_status_of_none (w.SetHeader "Content-Type" "application/json")
        StatusOK hstatus
      rw [write_of_allowed _ _ StatusOK hs1 (by decide) (by rw [writeHeader_head]; exact hhead)]
      simp only [writeHeader_body]
      show w.body ++ _ = _
      rw [hbody, empty_append]
    · have hs1 := writeHeader_status_of_none (w.SetHeader "Content-Type" "application/json")
        StatusServiceUnavailable hstatus
      rw [write_of_allowed _ _ StatusServiceUnavailable hs1 (by decide)
        (by rw [writeHeader_head]; exact hhead)]
      simp only [writeHeader_body]
      show w.body ++ _ = _
      rw [hbody, empty_append]

theorem healthCheckHandler_not_envelope (quote : String → String) (world : World)
    (w : ResponseWriter) (r : Request) (hstatus : w.status = none) (hbody : w.body = "")
    (hhead : w.head = false) :
    ¬ IsEnvelope quote (healthCheckHandler quote world w r).body := by
  intro h
  have h3 := envelope_fourth_char quote _ h
  rw [healthCheckHandler_body quote world w r hstatus hbody hhead] at h3
  cases hu : world.UnmarshalFromEnviron with
  | error e =>
    rw [hu] at h3
    have h4 : some (Char.ofNat 102) = some (Char.ofNat 117) := h3
    exact absurd h4 (by decide)
  | ok cnf =>
    rw [hu] at h3
    simp only [HealthStatus.Marshal] at h3
    obtain ⟨more, hmore⟩ := jsonObject_tag_data "status" (quote (runHealthCheck world cnf).Status)
      [(jsonTag "timestamp", dquote ++ (runHealthCheck world cnf).Timestamp ++ dquote),
       (jsonTag "checks", jsonObject ((sortByKey (runHealthCheck world cnf).Checks).map
          (fun e => (quote e.1, quote e.2))))] "\n"
    rw [hmore] at h3
    have h4 : some (Char.ofNat 116) = some (Char.ofNat 117) := h3
    exact absurd h4 (by decide)

theorem authMiddleware_reject {α : Type} (next : HandlerFunc α) (cnf : environment)
    (w : ResponseWriter) (r : Request) (a : α) (hstatus : w.status = none)
    (hbody : w.body = "") (hhead : w.head = false)
    (h : r.Header.Get "X-API-KEY" ≠ cnf.ApiToken) :
    (authMiddleware next cnf w r a).1.status = some 401 ∧
    (authMiddleware next cnf w r a).1.body = "Missing Authorization Header\n" := by
  have hs1 := writeHeader_status_of_none w StatusUnauthorized hstatus
  have hdef : (authMiddleware next cnf w r a).1 =
      (w.WriteHeader StatusUnauthorized).Write "Missing Authorization Header\n" := by
    simp [authMiddleware, h]
  rw [hdef, write_of_allowed _ _ StatusUnauthorized hs1 (by decide)
    (by rw [writeHeader_head]; exact hhead)]
  refine ⟨hs1, ?_⟩
  show (w.WriteHeader StatusUnauthorized).body ++ _ = _
  rw [writeHeader_body, hbody, empty_append]

theorem reject_body_not_envelope (quote : String → String) :
    ¬ IsEnvelope quote "Missing Authorization Header\n" := by
  intro h
  have h3 := envelope_fourth_char quote _ h
  have h4 : some (Char.ofNat 115) = some (Char.ofNat 117) := h3
  exact absurd h4 (by decide)

/-- A reply with status 204 has no body, whatever `returnResponse` writes. -/
theorem returnResponse_no_content (quote : String → String) (msg : String)
    (data : Option Iface) :
    (returnResponse quote 204 msg data ResponseWriter.fresh).body = "" := by
  simp [returnResponse, ResponseWriter.Write, ResponseWriter.WriteHeader,
    ResponseWriter.SetHeader, ResponseWriter.fresh, bodyAllowedForStatus]

/-- C8, as stated, fails: the 401 response of `authMiddleware` and the response of
`healthCheckHandler` are not envelopes, under any JSON encoding of strings, and
a response that `returnResponse` writes with status 204 has an empty body. -/
theorem responses_envelope_counterexample :
    (authMiddleware echoHandler sampleEnv ResponseWriter.fresh
        ⟨"GET", "/requests", ⟨[]⟩, ""⟩ 0).1.body = "Missing Authorization Header\n" ∧
    (∀ quote : String → String, ¬ IsEnvelope quote
      (authMiddleware echoHandler sampleEnv ResponseWriter.fresh
        ⟨"GET", "/requests", ⟨[]⟩, ""⟩ 0).1.body) ∧
    (∀ quote : String → String, ¬ IsEnvelope quote
      (healthCheckHandler quote downWorld ResponseWriter.fresh
        ⟨"GET", "/health", ⟨[]⟩, ""⟩).body) ∧
    (∀ quote : String → String,
      (returnResponse quote 204 "deleted" none ResponseWriter.fresh).body = "" ∧
      ¬ IsEnvelope quote (returnResponse quote 204 "deleted" none ResponseWriter.fresh).body) := by
  have hb : (authMiddleware echoHandler sampleEnv ResponseWriter.fresh
      ⟨"GET", "/requests", ⟨[]⟩, ""⟩ 0).1.body = "Missing Authorization Header\n" :=
    (authMiddleware_reject echoHandler sampleEnv ResponseWriter.fresh
      ⟨"GET", "/requests", ⟨[]⟩, ""⟩ 0 rfl rfl rfl (by decide)).2
  refine ⟨hb, ?_, ?_, ?_⟩
  · intro quote
    rw [hb]
    exact reject_body_not_envelope quote
  · intro quote
    exact healthCheckHandler_not_envelope quote downWorld ResponseWriter.fresh _ rfl rfl rfl
  · intro quote
    have h0 := returnResponse_no_content quote "deleted" none
    refine ⟨h0, ?_⟩
    intro h
    have h3 := envelope_fourth_char quote _ h
    rw [h0] at h3
    have h4 : (none : Option Char) = some (Char.ofNat 117) := h3
    exact absurd h4 (by decide)

/-- C8, as the code has it: on a fresh writer answering a request other than
`HEAD`, a response written by `returnResponse` with a status code that allows a
body (200..999 other than 204 and 304) and data that is nil or can be encoded is
a JSON envelope with members `success`, `message` and `data`, where `success` is
false exactly when the status code is at least 400; the 401 response of
`authMiddleware` is the plain text `Missing Authorization Header`, and the
response of `healthCheckHandler` is the health status object, or the plain text
`Configuration error`; neither of these is an envelope. -/
theorem responses_envelope_only_returnResponse {α : Type} (quote : String → String) :
    (∀ (code : Int) (msg : String) (data : Option Iface), 200 ≤ code → code ≤ 999 →
        code ≠ 204 → code ≠ 304 →
        (∀ v, data = some v → v.json.isSome = true) →
        (returnResponse quote code msg data ResponseWriter.fresh).status = some code ∧
        (returnResponse quote code msg data ResponseWriter.fresh).body =
          envelopeText quote (decide (code < 400)) msg (data.bind Iface.json) ++ "\n" ∧
        IsEnvelope quote (returnResponse quote code msg data ResponseWriter.fresh).body) ∧
    (∀ (next : HandlerFunc α) (cnf : environment) (r : Request) (a : α),
        r.Header.Get "X-API-KEY" ≠ cnf.ApiToken →
        (authMiddleware next cnf ResponseWriter.fresh r a).1.status = some 401 ∧
        (authMiddleware next cnf ResponseWriter.fresh r a).1.body =
          "Missing Authorization Header\n" ∧
        ¬ IsEnvelope quote (authMiddleware next cnf ResponseWriter.fresh r a).1.body) ∧
    (∀ (world : World) (r : Request),
        (healthCheckHandler quote world ResponseWriter.fresh r).body =
          (match world.UnmarshalFromEnviron with
            | Except.error _ => "Configuration error\n"
            | Except.ok cnf => (runHealthCheck world cnf).Marshal quote ++ "\n") ∧
        ¬ IsEnvelope quote (healthCheckHandler quote world ResponseWriter.fresh r).body) := by
  refine ⟨?_, ?_, ?_⟩
  · intro code msg data h200 _ h204 h304 hdata
    obtain ⟨hb, hs⟩ := returnResponse_body quote code msg data ResponseWriter.fresh rfl rfl rfl
      (bodyAllowed_of_range code h200 h204 h304) hdata
    exact ⟨hs, hb, ⟨_, _, _, hb⟩⟩
  · intro next cnf r a h
    obtain ⟨h1, h2⟩ := authMiddleware_reject next cnf ResponseWriter.fresh r a rfl rfl rfl h
    refine ⟨h1, h2, ?_⟩
    rw [h2]
    exact reject_body_not_envelope quote
  · intro world r
    exact ⟨healthCheckHandler_body quote world ResponseWriter.fresh r rfl rfl rfl,
      healthCheckHandler_not_envelope quote world ResponseWriter.fresh r rfl rfl rfl⟩

theorem responses_envelope_only_returnResponse_witness :
    (returnResponse plainQuote 404 "not found" none ResponseWriter.fresh).status = some 404 ∧
    (returnResponse plainQuote 404 "not found" none ResponseWriter.fresh).body =
      envelopeText plainQuote false "not found" none ++ "\n" ∧
    IsEnvelope plainQuote (returnResponse plainQuote 404 "not found" none
      ResponseWriter.fresh).body :=
  (@responses_envelope_only_returnResponse Nat plainQuote).1
    404 "not found" none (by decide) (by decide) (by decide) (by decide) (by simp)

end HelmSecrets
